import Mathlib

/-
Verification of the computation layer of the agentipy repository:
account derivation helpers (meteora_dlmm), constant-product pricing
(raydium), bonding-curve pricing and slippage (pumpfun), the
confirmation polling loop, transaction submission, and the u64 seed
packer.  Numeric Python code that runs on IEEE doubles is modelled in
exact rational arithmetic; at every concrete input used below the
double-precision result agrees with the exact one to far below the
margins that decide the statements.
-/

/-! ### Meteora DLMM derivation helpers
    (src/agentipy/utils/meteora_dlmm/utils.py, constants.py) -/

/-- MAX_BIN_ARRAY_SIZE = BN(70) in constants.py; the BN wrapper holds the
plain integer 70. -/
def MAX_BIN_ARRAY_SIZE : Int := 70

/-- bin_id_to_bin_array_index bin_id runs
div, mod = divmod(bin_id, MAX_BIN_ARRAY_SIZE) and returns
div - 1 if bin_id < 0 and mod != 0 else div.  The Python divmod on
integers with a positive divisor is floor division with a nonnegative
remainder, which Int.fdiv / Int.fmod reproduce exactly. -/
def bin_id_to_bin_array_index (bin_id : Int) : Int :=
  let div := Int.fdiv bin_id MAX_BIN_ARRAY_SIZE
  let mod := Int.fmod bin_id MAX_BIN_ARRAY_SIZE
  if bin_id < 0 ∧ mod ≠ 0 then div - 1 else div

/-- Byte strings of public keys, as lists of byte values. -/
abbrev PubkeyBytes := List Nat

/-- Strict lexicographic greater-than on byte strings, matching the
Python comparison bytes(token_x) > bytes(token_y): a proper prefix is
smaller than the longer string. -/
def bytes_gt : List Nat → List Nat → Bool
  | _ :: _, [] => true
  | [], _ => false
  | a :: as, b :: bs => if b < a then true else if a < b then false else bytes_gt as bs

/-- sort_token_mints from utils.py: (token_y, token_x) if
bytes(token_x) > bytes(token_y) else (token_x, token_y). -/
def sort_token_mints (token_x token_y : PubkeyBytes) : PubkeyBytes × PubkeyBytes :=
  if bytes_gt token_x token_y then (token_y, token_x) else (token_x, token_y)

/-- derive_customizable_permissionless_lb_pair from utils.py: sorts the
two mints, then calls PublicKey.find_program_address on the seed list
[bytes(ILM_BASE), bytes(min_key), bytes(max_key)].  The hash-based
find_program_address lives in the external solders library, so it is
passed in as an arbitrary function of the seed list and the program id. -/
def derive_customizable_permissionless_lb_pair
    (find_program_address : List PubkeyBytes → PubkeyBytes → PubkeyBytes × Nat)
    (ilm_base : PubkeyBytes) (token_x token_y program_id : PubkeyBytes) :
    PubkeyBytes × Nat :=
  let p := sort_token_mints token_x token_y
  find_program_address [ilm_base, p.1, p.2] program_id

/-! ### Raydium constant-product pricing
    (src/agentipy/utils/raydium/utils.py, lines 245-257) -/

/-- Banker rounding of an exact rational to an integer, the rule used by
the Python round builtin: nearest integer, ties to the even one. -/
def round_half_even (x : ℚ) : ℤ :=
  let f := ⌊x⌋
  let frac := x - (f : ℚ)
  if frac < 1 / 2 then f
  else if 1 / 2 < frac then f + 1
  else if f % 2 = 0 then f else f + 1

/-- round(x, 9): round to nine decimal places, ties to even. -/
def round9 (x : ℚ) : ℚ := (round_half_even (x * 10 ^ 9) : ℚ) / 10 ^ 9

/-- Line 246 of sol_for_tokens:
effective_sol_used = spend_sol_amount - (spend_sol_amount * (swap_fee / 100)). -/
def effective_sol_used (spend_sol_amount swap_fee : ℚ) : ℚ :=
  spend_sol_amount - spend_sol_amount * (swap_fee / 100)

/-- Lines 247-249 of sol_for_tokens with the intermediate names inlined:
constant_product = base_vault_balance * quote_vault_balance;
updated_base_vault_balance = constant_product / (quote_vault_balance + effective_sol_used);
tokens_received = base_vault_balance - updated_base_vault_balance. -/
def tokens_received (spend_sol_amount base_vault_balance quote_vault_balance swap_fee : ℚ) : ℚ :=
  base_vault_balance -
    base_vault_balance * quote_vault_balance /
      (quote_vault_balance + effective_sol_used spend_sol_amount swap_fee)

/-- sol_for_tokens: return round(tokens_received, 9). -/
def sol_for_tokens (spend_sol_amount base_vault_balance quote_vault_balance swap_fee : ℚ) : ℚ :=
  round9 (tokens_received spend_sol_amount base_vault_balance quote_vault_balance swap_fee)

/-- Line 253 of tokens_for_sol:
effective_tokens_sold = sell_token_amount * (1 - (swap_fee / 100)). -/
def effective_tokens_sold (sell_token_amount swap_fee : ℚ) : ℚ :=
  sell_token_amount * (1 - swap_fee / 100)

/-- Lines 254-256 of tokens_for_sol with the intermediate names inlined:
constant_product = base_vault_balance * quote_vault_balance;
updated_quote_vault_balance = constant_product / (base_vault_balance + effective_tokens_sold);
sol_received = quote_vault_balance - updated_quote_vault_balance. -/
def sol_received (sell_token_amount base_vault_balance quote_vault_balance swap_fee : ℚ) : ℚ :=
  quote_vault_balance -
    base_vault_balance * quote_vault_balance /
      (base_vault_balance + effective_tokens_sold sell_token_amount swap_fee)

/-- tokens_for_sol: return round(sol_received, 9). -/
def tokens_for_sol (sell_token_amount base_vault_balance quote_vault_balance swap_fee : ℚ) : ℚ :=
  round9 (sol_received sell_token_amount base_vault_balance quote_vault_balance swap_fee)

/-! ### Claim C1 -/

/-- C1: the claim says bin_id_to_bin_array_index equals floor division by
70, mapping bin id -1 to -1.  The code disagrees: Python divmod already
floors, and the extra div - 1 branch (a correction needed only in
languages whose bignum divmod truncates toward zero) subtracts one a
second time, so bin id -1 maps to -2.  This theorem evaluates the code
at the failing input -1 and records the floor value the claim expects,
together with two inputs where code and floor division agree. -/
theorem bin_id_to_bin_array_index_at_neg_one :
    bin_id_to_bin_array_index (-1) = -2 ∧
    Int.fdiv (-1) MAX_BIN_ARRAY_SIZE = -1 ∧
    bin_id_to_bin_array_index (-70) = -1 ∧
    bin_id_to_bin_array_index 139 = 1 := by
  refine ⟨by decide, by decide, by decide, by decide⟩

/-! ### Claim C2 -/

/-- C2 counterexample: at reserve_in = 1000000, reserve_out = 2000000,
fee 25 bps (swap_fee = 0.25) and input 10000, the quote returned by
sol_for_tokens is strictly between 19752 and 19753, hence it is not
19755 as the claim states, and it is not an integer at all, so no floor
to the integer unit was applied. -/
theorem sol_for_tokens_example_ne_spec :
    sol_for_tokens 10000 2000000 1000000 (1/4) ≠ 19755 ∧
    19752 < sol_for_tokens 10000 2000000 1000000 (1/4) ∧
    sol_for_tokens 10000 2000000 1000000 (1/4) < 19753 := by
  refine ⟨?_, ?_, ?_⟩ <;>
    norm_num [sol_for_tokens, round9, round_half_even, tokens_received, effective_sol_used]

/-- C2 amended: effective input is 9975 as claimed, but the exact
constant-product output is 19950000000 / 1009975 (about 19752.96, not
19755), and the value returned by sol_for_tokens is that quantity
rounded to nine decimal places: a non-integer strictly between 19752
and 19753.  No flooring to the integer unit and no slippage adjustment
occur in the function. -/
theorem sol_for_tokens_example_value :
    effective_sol_used 10000 (1/4) = 9975 ∧
    tokens_received 10000 2000000 1000000 (1/4) = 19950000000/1009975 ∧
    19752 < sol_for_tokens 10000 2000000 1000000 (1/4) ∧
    sol_for_tokens 10000 2000000 1000000 (1/4) < 19753 := by
  refine ⟨?_, ?_, ?_, ?_⟩ <;>
    norm_num [sol_for_tokens, round9, round_half_even, tokens_received, effective_sol_used]

/-! ### Claim C3 -/

/-- C3 counterexample: both reserves equal 1 (strictly positive) and the
input 1 / 10 ^ 10 has strictly positive effective input, yet the quote
returned by sol_for_tokens is 0, not strictly greater than 0: the final
rounding to nine decimal places collapses a tiny positive exact output
to zero. -/
theorem sol_for_tokens_tiny_input_zero :
    0 < effective_sol_used (1/10^10) (1/4) ∧
    sol_for_tokens (1/10^10) 1 1 (1/4) = 0 := by
  constructor
  · norm_num [effective_sol_used]
  · norm_num [sol_for_tokens, round9, round_half_even, tokens_received, effective_sol_used]

/-- C3 amended: the strict bounds hold for the exact constant-product
value computed before the final rounding to nine decimal places: for
strictly positive reserves and strictly positive effective input, the
exact output of either direction is strictly between 0 and the
output-side reserve.  (The returned value, rounded to nine decimals,
can degenerate to 0, as the counterexample shows.) -/
theorem tokens_received_bounds
    (spend base quote fee sell : ℚ)
    (hb : 0 < base) (hq : 0 < quote)
    (he : 0 < effective_sol_used spend fee)
    (ht : 0 < effective_tokens_sold sell fee) :
    (0 < tokens_received spend base quote fee ∧
      tokens_received spend base quote fee < base) ∧
    (0 < sol_received sell base quote fee ∧
      sol_received sell base quote fee < quote) := by
  constructor
  · have hd : 0 < quote + effective_sol_used spend fee := by linarith
    have h1 : 0 < base * quote / (quote + effective_sol_used spend fee) :=
      div_pos (mul_pos hb hq) hd
    have h2 : base * quote / (quote + effective_sol_used spend fee) < base := by
      rw [div_lt_iff₀ hd]; nlinarith
    unfold tokens_received
    constructor <;> linarith
  · have hd : 0 < base + effective_tokens_sold sell fee := by linarith
    have h1 : 0 < base * quote / (base + effective_tokens_sold sell fee) :=
      div_pos (mul_pos hb hq) hd
    have h2 : base * quote / (base + effective_tokens_sold sell fee) < quote := by
      rw [div_lt_iff₀ hd]; nlinarith
    unfold sol_received
    constructor <;> linarith

/-- Witness for the amended C3 theorem at the concrete snapshot of the
worked example. -/
theorem tokens_received_bounds_witness :
    (0 < tokens_received 10000 2000000 1000000 (1/4) ∧
      tokens_received 10000 2000000 1000000 (1/4) < 2000000) ∧
    (0 < sol_received 500 2000000 1000000 (1/4) ∧
      sol_received 500 2000000 1000000 (1/4) < 1000000) :=
  tokens_received_bounds 10000 2000000 1000000 (1/4) 500
    (by norm_num) (by norm_num)
    (by norm_num [effective_sol_used])
    (by norm_num [effective_tokens_sold])

/-! ### Claim C4 -/

/-- C4 counterexample: with swap_fee = 100 the fee consumes the whole
input, so effective input is 0, yet sol_for_tokens succeeds and returns
the number 0.  The function is a total numeric function with no typed
failure channel, so no InvalidAmount error is possible. -/
theorem sol_for_tokens_no_invalid_amount :
    effective_sol_used 10000 100 = 0 ∧
    sol_for_tokens 10000 2000000 1000000 100 = 0 := by
  constructor
  · norm_num [effective_sol_used]
  · norm_num [sol_for_tokens, round9, round_half_even, tokens_received, effective_sol_used]

/-- C4 amended: the pricing functions validate nothing and always return
a number: zero effective input yields a successful zero output, a zero
output-side reserve yields 0, and a zero input-side reserve yields the
entire output-side reserve, instead of any InvalidAmount or
InvalidPoolState failure. -/
theorem sol_for_tokens_degenerate_values :
    sol_for_tokens 10000 2000000 1000000 100 = 0 ∧
    sol_for_tokens 10000 0 1000000 (1/4) = 0 ∧
    sol_for_tokens 10000 2000000 0 (1/4) = 2000000 := by
  refine ⟨?_, ?_, ?_⟩ <;>
    norm_num [sol_for_tokens, round9, round_half_even, tokens_received, effective_sol_used]

/-! ### Claim C5 -/

/-- If x compares strictly greater than y as byte strings, y does not
compare strictly greater than x. -/
theorem bytes_gt_asymm (x y : List Nat) (h : bytes_gt x y = true) :
    bytes_gt y x = false := by
  induction x generalizing y with
  | nil =>
    cases y with
    | nil => simp [bytes_gt] at h ⊢
    | cons b bs => simp [bytes_gt] at h
  | cons a as ih =>
    cases y with
    | nil => simp [bytes_gt]
    | cons b bs =>
      by_cases hba : b < a
      · have hab : ¬ a < b := by omega
        simp [bytes_gt, hba, hab]
      · by_cases hab : a < b
        · simp [bytes_gt, hba, hab] at h
        · simp only [bytes_gt, if_neg hba, if_neg hab] at h
          simp only [bytes_gt, if_neg hab, if_neg hba]
          exact ih bs h

/-- If neither byte string compares strictly greater than the other,
they are equal. -/
theorem bytes_gt_antisymm (x y : List Nat) (h1 : bytes_gt x y = false)
    (h2 : bytes_gt y x = false) : x = y := by
  induction x generalizing y with
  | nil =>
    cases y with
    | nil => rfl
    | cons b bs => simp [bytes_gt] at h2
  | cons a as ih =>
    cases y with
    | nil => simp [bytes_gt] at h1
    | cons b bs =>
      by_cases hba : b < a
      · simp [bytes_gt, hba] at h1
      · by_cases hab : a < b
        · simp [bytes_gt, hab, hba] at h2
        · have hae : a = b := by omega
          simp only [bytes_gt, if_neg hba, if_neg hab] at h1
          simp only [bytes_gt, if_neg hab, if_neg hba] at h2
          rw [hae, ih bs h1 h2]

/-- sort_token_mints is symmetric in its two arguments. -/
theorem sort_token_mints_comm (x y : PubkeyBytes) :
    sort_token_mints x y = sort_token_mints y x := by
  unfold sort_token_mints
  cases hxy : bytes_gt x y with
  | true => rw [bytes_gt_asymm x y hxy]; simp
  | false =>
    cases hyx : bytes_gt y x with
    | true => simp
    | false => rw [bytes_gt_antisymm x y hxy hyx]

/-- C5: pool-pair derivation is order-independent in the two mints:
whatever function is used as find_program_address, swapping the two
mint arguments leaves the derived (address, bump) unchanged, because
the mints are sorted into canonical (min, max) byte order before being
used as seeds. -/
theorem derive_lb_pair_comm
    (find_program_address : List PubkeyBytes → PubkeyBytes → PubkeyBytes × Nat)
    (ilm_base token_x token_y program_id : PubkeyBytes) :
    derive_customizable_permissionless_lb_pair find_program_address
        ilm_base token_x token_y program_id =
      derive_customizable_permissionless_lb_pair find_program_address
        ilm_base token_y token_x program_id := by
  unfold derive_customizable_permissionless_lb_pair
  rw [sort_token_mints_comm]

/-! ### Pumpfun bonding curve (src/agentipy/tools/use_pumpfun.py,
    src/agentipy/constants) -/

/-- LAMPORTS_PER_SOL = 1_000_000_000 from agentipy.constants. -/
def LAMPORTS_PER_SOL : ℕ := 1000000000

/-- TOKEN_DECIMALS = 6 from agentipy.constants. -/
def TOKEN_DECIMALS : ℕ := 6

/-- The Python int() conversion: truncation toward zero. -/
def py_int (x : ℚ) : ℤ := if 0 ≤ x then ⌊x⌋ else ⌈x⌉

/-- Modelled from the spec: the BondingCurveState class is imported in
use_pumpfun.py from agentipy.types but its definition is missing from
the source tree; the spec describes it as an immutable value holding
virtual token reserves and virtual base-currency reserves (the layout
discriminator is checked before construction and plays no role in the
arithmetic below).  The two fields the pricing code reads are modelled
as integers. -/
structure BondingCurveState where
  virtual_token_reserves : ℤ
  virtual_sol_reserves : ℤ

/-- Error raised by calculate_pump_curve_price: the ValueError with the
message Invalid reserve state. -/
inductive PumpCurveError
  | invalidReserveState
deriving DecidableEq

/-- PumpfunManager.calculate_pump_curve_price: raise if either virtual
reserve is <= 0, otherwise return
(virtual_sol_reserves / LAMPORTS_PER_SOL) / (virtual_token_reserves / 10 ** TOKEN_DECIMALS),
with Python true division modelled as exact rational division. -/
def calculate_pump_curve_price (curve_state : BondingCurveState) :
    Except PumpCurveError ℚ :=
  if curve_state.virtual_token_reserves ≤ 0 ∨ curve_state.virtual_sol_reserves ≤ 0 then
    .error .invalidReserveState
  else
    .ok (((curve_state.virtual_sol_reserves : ℚ) / (LAMPORTS_PER_SOL : ℚ)) /
      ((curve_state.virtual_token_reserves : ℚ) / (10 ^ TOKEN_DECIMALS : ℚ)))

/-- PumpfunManager.sell_token, lines 167-171: the minimum SOL output in
lamports is int(((token_balance / 10 ** TOKEN_DECIMALS) * token_price_sol)
* (1 - slippage) * LAMPORTS_PER_SOL). -/
def min_sol_output (token_balance : ℕ) (token_price_sol slippage : ℚ) : ℤ :=
  py_int ((token_balance : ℚ) / (10 ^ TOKEN_DECIMALS : ℚ) * token_price_sol *
    (1 - slippage) * (LAMPORTS_PER_SOL : ℚ))

/-- The raw (pre-slippage) SOL output of the same sale in lamports, the
quantity the claim calls the raw output amount: the token balance in
decimal units times the spot price, scaled to lamports.  This is the
spec-side quantity the computed minimum is compared against. -/
def raw_sol_output (token_balance : ℕ) (token_price_sol : ℚ) : ℚ :=
  (token_balance : ℚ) / (10 ^ TOKEN_DECIMALS : ℚ) * token_price_sol *
    (LAMPORTS_PER_SOL : ℚ)

/-! ### Claim C6 -/

/-- C6: for every token balance, every nonnegative spot price and every
slippage whose factor 1 - slippage lies in (0, 1], the slippage-adjusted
minimum output computed before a bonding-curve sell never exceeds the
raw output amount. -/
theorem min_sol_output_le_raw (token_balance : ℕ) (price slippage : ℚ)
    (hp : 0 ≤ price) (h0 : 0 ≤ slippage) (h1 : slippage < 1) :
    (min_sol_output token_balance price slippage : ℚ) ≤
      raw_sol_output token_balance price := by
  have hraw : 0 ≤ raw_sol_output token_balance price := by
    unfold raw_sol_output
    positivity
  have hfac0 : 0 < 1 - slippage := by linarith
  have hfac1 : 1 - slippage ≤ 1 := by linarith
  have hxraw : (token_balance : ℚ) / (10 ^ TOKEN_DECIMALS : ℚ) * price *
      (1 - slippage) * (LAMPORTS_PER_SOL : ℚ) =
      raw_sol_output token_balance price * (1 - slippage) := by
    unfold raw_sol_output; ring
  have hx0 : 0 ≤ (token_balance : ℚ) / (10 ^ TOKEN_DECIMALS : ℚ) * price *
      (1 - slippage) * (LAMPORTS_PER_SOL : ℚ) := by
    rw [hxraw]
    exact mul_nonneg hraw (le_of_lt hfac0)
  have hle : (token_balance : ℚ) / (10 ^ TOKEN_DECIMALS : ℚ) * price *
      (1 - slippage) * (LAMPORTS_PER_SOL : ℚ) ≤ raw_sol_output token_balance price := by
    rw [hxraw]
    exact mul_le_of_le_one_right hraw hfac1
  unfold min_sol_output py_int
  rw [if_pos hx0]
  exact le_trans (Int.floor_le _) hle

/-- Witness for C6 at a concrete sale: one full token, spot price 1/2
SOL, slippage 25 percent. -/
theorem min_sol_output_le_raw_witness :
    (min_sol_output 1000000 (1/2) (1/4) : ℚ) ≤ raw_sol_output 1000000 (1/2) :=
  min_sol_output_le_raw 1000000 (1/2) (1/4)
    (by norm_num) (by norm_num) (by norm_num)

/-! ### Claim C7 -/

/-- C7: the bonding-curve spot price fails with the invalid-reserve
error exactly on nonpositive virtual reserves, and on strictly positive
reserves it equals the virtual SOL reserves divided by the virtual
token reserves, each scaled by its decimal base (10 ^ 9 lamports per
SOL, 10 ^ 6 token units) - equivalently the fraction below. -/
theorem calculate_pump_curve_price_spec (s : BondingCurveState) :
    (s.virtual_token_reserves ≤ 0 ∨ s.virtual_sol_reserves ≤ 0 →
      calculate_pump_curve_price s = .error .invalidReserveState) ∧
    (0 < s.virtual_token_reserves → 0 < s.virtual_sol_reserves →
      calculate_pump_curve_price s =
        .ok (((s.virtual_sol_reserves : ℚ) * (10 ^ TOKEN_DECIMALS : ℚ)) /
          ((s.virtual_token_reserves : ℚ) * (LAMPORTS_PER_SOL : ℚ)))) := by
  constructor
  · intro h
    unfold calculate_pump_curve_price
    rw [if_pos h]
  · intro ht hs
    have hne : ¬ (s.virtual_token_reserves ≤ 0 ∨ s.virtual_sol_reserves ≤ 0) := by
      push_neg
      exact ⟨ht, hs⟩
    unfold calculate_pump_curve_price
    rw [if_neg hne]
    congr 1
    have htq : ((s.virtual_token_reserves : ℚ)) ≠ 0 := by
      exact_mod_cast ne_of_gt ht
    unfold LAMPORTS_PER_SOL TOKEN_DECIMALS
    field_simp
    ring

/-- Witness for C7: a curve with two billion token units and thirty SOL
of virtual reserves has the stated price, and a curve with zero token
reserves is rejected. -/
theorem calculate_pump_curve_price_spec_witness :
    calculate_pump_curve_price ⟨2000000000, 30000000000⟩ =
      .ok (((30000000000 : ℚ) * (10 ^ TOKEN_DECIMALS : ℚ)) /
        ((2000000000 : ℚ) * (LAMPORTS_PER_SOL : ℚ))) ∧
    calculate_pump_curve_price ⟨0, 5⟩ = .error .invalidReserveState :=
  ⟨(calculate_pump_curve_price_spec ⟨2000000000, 30000000000⟩).2
      (by norm_num) (by norm_num),
    (calculate_pump_curve_price_spec ⟨0, 5⟩).1 (Or.inl (by norm_num))⟩

/-! ### Confirmation polling (src/agentipy/utils/raydium/utils.py,
    confirm_txn, lines 179-201; the moonshot variant has the same
    structure) -/

/-- What the ledger answers to one get_transaction poll: no record yet
(the lookup raises inside the try block), executed with err = None, or
executed with a non-null err. -/
inductive PollResult
  | notFound
  | executedOk
  | executedErr
deriving DecidableEq

/-- The value confirm_txn returns: True, False or None. -/
inductive ConfirmOutcome
  | confirmed
  | failed
  | timedOut
deriving DecidableEq

/-- One unrolling of the confirm_txn while loop.  polls i is the answer
to the (i + 1)-th get_transaction call; fuel is the number of loop
iterations still allowed (max_retries minus the current retries
counter, which only a notFound poll increments).  The result carries the
outcome together with the total number of polls that were issued. -/
def confirm_txn_go (polls : ℕ → PollResult) : ℕ → ℕ → ConfirmOutcome × ℕ
  | i, 0 => (.timedOut, i)
  | i, fuel + 1 =>
    match polls i with
    | .executedOk => (.confirmed, i + 1)
    | .executedErr => (.failed, i + 1)
    | .notFound => confirm_txn_go polls (i + 1) fuel

/-- confirm_txn with its retries counter starting at 1 and the loop
guard retries < max_retries: at most max_retries - 1 unanswered polls
before the None return. -/
def confirm_txn (polls : ℕ → PollResult) (max_retries : ℕ) : ConfirmOutcome × ℕ :=
  confirm_txn_go polls 0 (max_retries - 1)

/-- If every poll inside the budget comes back notFound, the loop makes
exactly fuel polls and times out. -/
theorem confirm_txn_go_timeout (polls : ℕ → PollResult) :
    ∀ fuel i, (∀ j, i ≤ j → j < i + fuel → polls j = .notFound) →
      confirm_txn_go polls i fuel = (.timedOut, i + fuel) := by
  intro fuel
  induction fuel with
  | zero => intro i _; simp [confirm_txn_go]
  | succ n ih =>
    intro i h
    have hi : polls i = .notFound := h i (le_refl i) (by omega)
    have hrec := ih (i + 1) (fun j hj1 hj2 => h j (by omega) (by omega))
    simp only [confirm_txn_go, hi, hrec]
    exact congrArg _ (by omega)

/-- If the first k polls come back notFound and the (k + 1)-th reports
successful execution within the budget, the loop stops with confirmed
after exactly k + 1 polls. -/
theorem confirm_txn_go_ok (polls : ℕ → PollResult) :
    ∀ k i fuel, k < fuel → (∀ j, j < k → polls (i + j) = .notFound) →
      polls (i + k) = .executedOk →
      confirm_txn_go polls i fuel = (.confirmed, i + k + 1) := by
  intro k
  induction k with
  | zero =>
    intro i fuel hf _ hk
    obtain ⟨m, rfl⟩ : ∃ m, fuel = m + 1 := ⟨fuel - 1, by omega⟩
    simp only [Nat.add_zero] at hk
    simp [confirm_txn_go, hk]
  | succ n ih =>
    intro i fuel hf h hk
    obtain ⟨m, rfl⟩ : ∃ m, fuel = m + 1 := ⟨fuel - 1, by omega⟩
    have hi : polls i = .notFound := by
      have := h 0 (by omega)
      simpa using this
    have hrec := ih (i + 1) m (by omega)
      (fun j hj => by
        have := h (j + 1) (by omega)
        convert this using 2
        omega)
      (by
        convert hk using 2
        omega)
    simp only [confirm_txn_go, hi, hrec]
    exact congrArg _ (by omega)

/-- Same as confirm_txn_go_ok for a poll that reports execution with an
error: the loop stops with failed after exactly k + 1 polls, no retry. -/
theorem confirm_txn_go_err (polls : ℕ → PollResult) :
    ∀ k i fuel, k < fuel → (∀ j, j < k → polls (i + j) = .notFound) →
      polls (i + k) = .executedErr →
      confirm_txn_go polls i fuel = (.failed, i + k + 1) := by
  intro k
  induction k with
  | zero =>
    intro i fuel hf _ hk
    obtain ⟨m, rfl⟩ : ∃ m, fuel = m + 1 := ⟨fuel - 1, by omega⟩
    simp only [Nat.add_zero] at hk
    simp [confirm_txn_go, hk]
  | succ n ih =>
    intro i fuel hf h hk
    obtain ⟨m, rfl⟩ : ∃ m, fuel = m + 1 := ⟨fuel - 1, by omega⟩
    have hi : polls i = .notFound := by
      have := h 0 (by omega)
      simpa using this
    have hrec := ih (i + 1) m (by omega)
      (fun j hj => by
        have := h (j + 1) (by omega)
        convert this using 2
        omega)
      (by
        convert hk using 2
        omega)
    simp only [confirm_txn_go, hi, hrec]
    exact congrArg _ (by omega)

/-! ### Claim C8 -/

/-- C8: confirmation polling maps ledger answers to exactly one terminal
outcome.  A run whose first k answers are notFound and whose (k + 1)-th
answer reports successful execution ends confirmed after k + 1 polls; an
execution error likewise ends failed immediately after its poll with no
further polls; a run in which no record appears within the attempt
budget ends timedOut after exhausting the budget, and timedOut is a
value distinct from both confirmed and failed. -/
theorem confirm_txn_outcomes (polls : ℕ → PollResult) (max_retries k : ℕ) :
    ((∀ j, j < max_retries - 1 → polls j = .notFound) →
      confirm_txn polls max_retries = (.timedOut, max_retries - 1)) ∧
    (k < max_retries - 1 → (∀ j, j < k → polls j = .notFound) →
      polls k = .executedOk →
      confirm_txn polls max_retries = (.confirmed, k + 1)) ∧
    (k < max_retries - 1 → (∀ j, j < k → polls j = .notFound) →
      polls k = .executedErr →
      confirm_txn polls max_retries = (.failed, k + 1)) ∧
    (ConfirmOutcome.timedOut ≠ ConfirmOutcome.confirmed ∧
      ConfirmOutcome.timedOut ≠ ConfirmOutcome.failed) := by
  refine ⟨?_, ?_, ?_, by decide, by decide⟩
  · intro h
    unfold confirm_txn
    have := confirm_txn_go_timeout polls (max_retries - 1) 0
      (fun j hj1 hj2 => h j (by omega))
    simpa using this
  · intro hk hnf hok
    unfold confirm_txn
    have := confirm_txn_go_ok polls k 0 (max_retries - 1) hk
      (fun j hj => by simpa using hnf j hj) (by simpa using hok)
    simpa using this
  · intro hk hnf herr
    unfold confirm_txn
    have := confirm_txn_go_err polls k 0 (max_retries - 1) hk
      (fun j hj => by simpa using hnf j hj) (by simpa using herr)
    simpa using this

/-- Witness for C8 with the default budget max_retries = 20: a ledger
that never answers times out after 19 polls, one that reports an
execution error on the third poll fails after exactly 3 polls, and one
that reports success on the second poll confirms after exactly 2. -/
theorem confirm_txn_outcomes_witness :
    confirm_txn (fun _ => .notFound) 20 = (.timedOut, 19) ∧
    confirm_txn (fun i => if i < 2 then .notFound else .executedErr) 20 = (.failed, 3) ∧
    confirm_txn (fun i => if i < 1 then .notFound else .executedOk) 20 = (.confirmed, 2) :=
  ⟨(confirm_txn_outcomes (fun _ => .notFound) 20 0).1 (fun j _ => rfl),
    (confirm_txn_outcomes (fun i => if i < 2 then .notFound else .executedErr) 20 2).2.2.1
      (by omega) (fun j hj => by simp [hj]) (by simp),
    (confirm_txn_outcomes (fun i => if i < 1 then .notFound else .executedOk) 20 1).2.1
      (by omega) (fun j hj => by simp [hj]) (by simp)⟩

/-! ### Transaction submission (src/agentipy/utils/send_tx.py) -/

/-- Failures of the external calls send_tx makes, plus the explicit
exception sign_and_send_transaction raises when the confirmation
carries an error. -/
inductive RpcError
  | rpcFailure
  | txError (err : String)
deriving DecidableEq

/-- send_tx, modelled on its outcomes: the body fetches the latest
blockhash, fetches priority fees, signs, broadcasts, awaits
confirmation and returns the transaction id; each external call is an
argument that either produced a value or raised.  The surrounding
try/except logs and re-raises, so an exception from any step
propagates unchanged to the caller. -/
def send_tx (blockhash_resp : Except RpcError String)
    (fees_resp : Except RpcError Unit)
    (send_resp : Except RpcError String)
    (confirm_resp : Except RpcError Unit) : Except RpcError String :=
  match blockhash_resp with
  | .error e => .error e
  | .ok _ =>
    match fees_resp with
    | .error e => .error e
    | .ok _ =>
      match send_resp with
      | .error e => .error e
      | .ok tx_id =>
        match confirm_resp with
        | .error e => .error e
        | .ok _ => .ok tx_id

/-- sign_and_send_transaction, modelled the same way: fetch blockhash,
sign, broadcast, await confirmation; if the confirmation carries an
error value it raises an Exception, and the surrounding try/except
re-raises every failure. -/
def sign_and_send_transaction (blockhash_resp : Except RpcError String)
    (send_resp : Except RpcError String)
    (confirm_resp : Except RpcError (Option String)) : Except RpcError String :=
  match blockhash_resp with
  | .error e => .error e
  | .ok _ =>
    match send_resp with
    | .error e => .error e
    | .ok signature =>
      match confirm_resp with
      | .error e => .error e
      | .ok (some e) => .error (.txError e)
      | .ok none => .ok signature

/-! ### Claim C9 -/

/-- C9 counterexample: a call whose broadcast step fails at the network
level does not return a receipt; send_tx propagates the failure to the
caller (the except branch logs and re-raises), refuting the claim that
submission never raises for ordinary network-level failures. -/
theorem send_tx_raises_on_broadcast_failure :
    send_tx (.ok "blockhash") (.ok ()) (.error .rpcFailure) (.ok ()) =
      .error .rpcFailure := rfl

/-- C9 amended: send_tx returns a transaction id exactly when the
blockhash fetch, the priority-fee fetch, the broadcast and the
confirmation all succeed; any failing step propagates to the caller as
an exception rather than being encoded in a returned receipt, and
sign_and_send_transaction behaves the same way, additionally raising
when the confirmation reports an execution error. -/
theorem send_tx_ok_iff (blockhash_resp : Except RpcError String)
    (fees_resp : Except RpcError Unit)
    (send_resp : Except RpcError String)
    (confirm_resp : Except RpcError Unit)
    (confirm_resp2 : Except RpcError (Option String))
    (t : String) :
    (send_tx blockhash_resp fees_resp send_resp confirm_resp = .ok t ↔
      (∃ b, blockhash_resp = .ok b) ∧ fees_resp = .ok () ∧
        send_resp = .ok t ∧ confirm_resp = .ok ()) ∧
    (sign_and_send_transaction blockhash_resp send_resp confirm_resp2 = .ok t ↔
      (∃ b, blockhash_resp = .ok b) ∧ send_resp = .ok t ∧
        confirm_resp2 = .ok none) := by
  constructor
  · cases blockhash_resp <;> cases fees_resp <;> cases send_resp <;> cases confirm_resp <;>
      simp [send_tx]
  · cases blockhash_resp <;> cases send_resp <;>
      rcases confirm_resp2 with _ | (_ | _) <;>
      simp [sign_and_send_transaction]

/-! ### u64 seed packing (src/agentipy/utils/raydium/utils.py,
    bytes_of, lines 63-66) -/

/-- Little-endian base-256 digits: k bytes of n, least significant
first.  le_bytes 8 n is struct.pack of the format <Q applied to n. -/
def le_bytes : ℕ → ℕ → List ℕ
  | 0, _ => []
  | k + 1, n => n % 256 :: le_bytes k (n / 256)

/-- The error raised by bytes_of for out-of-range values. -/
inductive PackError
  | valueError
deriving DecidableEq

/-- bytes_of: raise ValueError unless 0 <= value < 2 ** 64, otherwise
return struct.pack of <Q, the 8-byte little-endian encoding. -/
def bytes_of (value : ℤ) : Except PackError (List ℕ) :=
  if 0 ≤ value ∧ value < 2 ^ 64 then .ok (le_bytes 8 value.toNat)
  else .error .valueError

/-- Value of a little-endian byte list. -/
def le_decode : List ℕ → ℕ
  | [] => 0
  | b :: bs => b + 256 * le_decode bs

theorem le_decode_le_bytes (k : ℕ) : ∀ n, le_decode (le_bytes k n) = n % 256 ^ k := by
  induction k with
  | zero => intro n; simp [le_bytes, le_decode, Nat.mod_one]
  | succ m ih =>
    intro n
    simp only [le_bytes, le_decode, ih]
    have h1 : n % (256 * 256 ^ m) / 256 = n / 256 % 256 ^ m :=
      Nat.mod_mul_right_div_self n 256 (256 ^ m)
    have h2 : n % (256 * 256 ^ m) % 256 = n % 256 :=
      Nat.mod_mod_of_dvd n ⟨256 ^ m, rfl⟩
    calc n % 256 + 256 * (n / 256 % 256 ^ m)
        = n % (256 * 256 ^ m) % 256 + 256 * (n % (256 * 256 ^ m) / 256) := by
          rw [h1, h2]
      _ = n % (256 * 256 ^ m) := by rw [Nat.add_comm, Nat.div_add_mod]
      _ = n % 256 ^ (m + 1) := by rw [pow_succ, mul_comm]

theorem le_bytes_length (k : ℕ) : ∀ n, (le_bytes k n).length = k := by
  induction k with
  | zero => intro n; simp [le_bytes]
  | succ m ih => intro n; simp [le_bytes, ih]

theorem le_bytes_lt (k : ℕ) : ∀ n, ∀ b ∈ le_bytes k n, b < 256 := by
  induction k with
  | zero => intro n b hb; simp [le_bytes] at hb
  | succ m ih =>
    intro n b hb
    simp only [le_bytes, List.mem_cons] at hb
    rcases hb with rfl | hb
    · exact Nat.mod_lt _ (by norm_num)
    · exact ih (n / 256) b hb

/-! ### Claim C10 -/

/-- C10: bytes_of raises ValueError exactly on integers outside the
unsigned 64-bit range, and on every in-range value it returns the
8-byte little-endian encoding: a list of 8 digits below 256 whose
little-endian value is the input. -/
theorem bytes_of_spec (value : ℤ) :
    (bytes_of value = .error .valueError ↔ value < 0 ∨ 2 ^ 64 ≤ value) ∧
    (0 ≤ value → value < 2 ^ 64 →
      bytes_of value = .ok (le_bytes 8 value.toNat) ∧
      (le_bytes 8 value.toNat).length = 8 ∧
      (∀ b ∈ le_bytes 8 value.toNat, b < 256) ∧
      (le_decode (le_bytes 8 value.toNat) : ℤ) = value) := by
  constructor
  · by_cases h : 0 ≤ value ∧ value < 2 ^ 64
    · have hok : bytes_of value = .ok (le_bytes 8 value.toNat) := by
        unfold bytes_of
        rw [if_pos h]
      rw [hok]
      constructor
      · intro hc; exact Except.noConfusion hc
      · intro hc; exact absurd hc (by omega)
    · have herr : bytes_of value = .error .valueError := by
        unfold bytes_of
        rw [if_neg h]
      rw [herr]
      constructor
      · intro _; omega
      · intro _; rfl
  · intro h0 h1
    have hok : bytes_of value = .ok (le_bytes 8 value.toNat) := by
      unfold bytes_of
      rw [if_pos]
      exact ⟨h0, h1⟩
    refine ⟨hok, le_bytes_length 8 _, le_bytes_lt 8 _, ?_⟩
    have hlt : value.toNat < 256 ^ 8 := by omega
    rw [le_decode_le_bytes, Nat.mod_eq_of_lt hlt]
    omega

/-- Witness for C10: 258 is packed as its little-endian bytes and -1 is
rejected. -/
theorem bytes_of_spec_witness :
    bytes_of 258 = .ok [2, 1, 0, 0, 0, 0, 0, 0] ∧
    bytes_of (-1) = .error .valueError := by
  constructor
  · have h := ((bytes_of_spec 258).2 (by norm_num) (by norm_num)).1
    rw [h]
    rfl
  · exact (bytes_of_spec (-1)).1.mpr (Or.inl (by norm_num))
